import Mathlib

/-
Verification of the npm-forgecode installer/launcher shim.

The development shallowly embeds the two source files:
  src/install.js : libc detection, binary selection, copy + post-copy
                   compatibility validation (Linux), FORCE_MUSL handling;
  src/forge.js   : the launcher that spawns the installed binary, forwards
                   SIGINT and propagates the child's exit code.

JavaScript strings are modelled as Lean `String` (lists of characters);
the only string primitives the sources use are `toLowerCase`, `includes`,
`replace` (first occurrence) and the regex `\b(\d+\.\d+)\b`, all of which
are embedded below.  The comparison `parseFloat(version) >= 2.32` is
modelled at IEEE double precision: the literal 2.32 rounds to the double
5224175567749775 / 2^51 (232 * 2^51 / 100 = 5224175567749775.36 rounds
down, to an odd mantissa), `parseFloat` rounds the string's exact decimal
value q to the nearest double with ties to even (as ECMA-262 mandates up
to 20 significant digits and every major engine does throughout), and the
midpoint 10448351135499549 / 2^52 between that double and its predecessor
ties to the even mantissa below it; by monotonicity of rounding the
comparison therefore holds exactly when q > 10448351135499549 / 2^52.
-/

/-- JS word character (regex `\w`): ASCII letter, digit or underscore. -/
def isWordChar (c : Char) : Bool := c.isAlphanum || c == '_'

/-- Value of a list of ASCII digit characters read in base 10. -/
def digitsToNat (l : List Char) : Nat :=
  l.foldl (fun acc c => acc * 10 + (c.toNat - 48)) 0

/-- `startsWithL l p` : `p` is a prefix of `l` (character lists). -/
def startsWithL : List Char → List Char → Bool
  | _, [] => true
  | [], _ :: _ => false
  | c :: cs, q :: qs => c == q && startsWithL cs qs

/-- `hasSub l p` : `p` occurs as a contiguous substring of `l`. -/
def hasSub : List Char → List Char → Bool
  | [], q => q.isEmpty
  | l@(_ :: cs), q => startsWithL l q || hasSub cs q

/-- JS `String.prototype.includes`. -/
def jsIncludes (s pat : String) : Bool := hasSub s.data pat.data

/-- JS `String.prototype.toLowerCase` (ASCII range; the sources only probe
for the ASCII marker "musl", whose characters only ASCII uppercase letters
lower-case onto). -/
def jsLower (s : String) : String := ⟨s.data.map Char.toLower⟩

/-- Replace the first occurrence of `pat` by `rep`, on character lists;
models JS `String.prototype.replace` with a plain-string pattern. -/
def replaceFirstL (pat rep : List Char) : List Char → List Char
  | [] => if pat.isEmpty then rep else []
  | c :: cs =>
    if startsWithL (c :: cs) pat then rep ++ (c :: cs).drop pat.length
    else c :: replaceFirstL pat rep cs

/-- JS `s.replace(pat, rep)` for string patterns (first occurrence only). -/
def jsReplace (s pat rep : String) : String := ⟨replaceFirstL pat.data rep.data s.data⟩

/-- Try to match `\d+\.\d+\b` at the head of `l` (the leading `\b` of the
regex is checked by the caller).  `\d+` is greedy; since shortening a
digit run can never turn a non-digit into `.` nor create a word boundary
between two digits, greedy-without-backtracking is exact here. -/
def matchVersionAt (l : List Char) : Option (List Char) :=
  let d1 := l.takeWhile Char.isDigit
  if d1.isEmpty then none
  else
    match l.drop d1.length with
    | '.' :: r2 =>
      let d2 := r2.takeWhile Char.isDigit
      if d2.isEmpty then none
      else
        match r2.drop d2.length with
        | [] => some (d1 ++ '.' :: d2)
        | c :: _ => if isWordChar c then none else some (d1 ++ '.' :: d2)
    | _ => none

/-- Left-to-right scan of `RegExp.prototype.exec` for `\b(\d+\.\d+)\b`:
at each position whose predecessor is not a word character, attempt the
match (the first matched character is a digit, so the leading `\b` holds
exactly when the predecessor is a non-word character or the string start). -/
def scanVersion : Bool → List Char → Option (List Char)
  | _, [] => none
  | prevIsWord, c :: rest =>
    match (if prevIsWord then none else matchVersionAt (c :: rest)) with
    | some v => some v
    | none => scanVersion (isWordChar c) rest

/-- First match of `/\b(\d+\.\d+)\b/` in `s`, as in
`install.js` lines 22 and 30. -/
def versionRegex (s : String) : Option String :=
  (scanVersion false s.data).map (fun l => ⟨l⟩)

/-- Libc family as reported by `getGlibcVersion` (`install.js`): the
string values 'gnu', 'musl', 'unknown'. -/
inductive LibcTy
  | gnu
  | musl
  | unknown
deriving DecidableEq

/-- The record `{ type, version }` returned by `getGlibcVersion`. -/
structure LibcInfo where
  type : LibcTy
  version : Option String
deriving DecidableEq

/-- Outcome of probing the system loader (`spawnSync('ldd', ['--version'])`
plus the optional `getconf GNU_LIBC_VERSION` output): either the captured
outputs, or a thrown error (e.g. `.toString()` on a null stream). -/
inductive ProbeResult
  | ok (lddOutput : String) (getconfOutput : Option String)
  | err
deriving DecidableEq

/-- `getGlibcVersion` (install.js lines 10-44): musl marker first, then the
version regex on the ldd output, then on the getconf output; a probe error
yields type 'unknown'. -/
def getGlibcVersion : ProbeResult → LibcInfo
  | .err => ⟨.unknown, none⟩
  | .ok lddOutput getconfOutput =>
    if jsIncludes (jsLower lddOutput) "musl" then ⟨.musl, none⟩
    else
      match versionRegex lddOutput with
      | some v => ⟨.gnu, some v⟩
      | none =>
        match getconfOutput.bind versionRegex with
        | some v => ⟨.gnu, some v⟩
        | none => ⟨.gnu, none⟩

/-- Parse a version string of the shape `d+.d+` into
(integer part, fraction digits value, fraction length).  The regex only
ever produces strings of this shape, for which this agrees exactly with
JS `parseFloat`. -/
def parseVersion (v : String) : Option (Nat × Nat × Nat) :=
  match v.data.span (fun c => c != '.') with
  | (ip, '.' :: fp) =>
    if !ip.isEmpty && ip.all Char.isDigit && !fp.isEmpty && fp.all Char.isDigit then
      some (digitsToNat ip, digitsToNat fp, fp.length)
    else none
  | _ => none

/-- `isGlibcVersionSufficient` (install.js lines 47-55):
`parseFloat(version) >= 2.32`, with a `null` version (and an unparsable
one, where `parseFloat` yields NaN) counting as insufficient.  The
comparison is between IEEE doubles: the literal 2.32 is the double
5224175567749775 / 2^51, and the correctly-rounded `parseFloat` of a
version with exact value `q = i + f / 10^k` reaches at least that double
exactly when q strictly exceeds the rounding boundary
10448351135499549 / 2^52 (the midpoint below it, which itself ties to the
even mantissa beneath); cross-multiplied into natural arithmetic. -/
def isGlibcVersionSufficient : Option String → Bool
  | none => false
  | some v =>
    match parseVersion v with
    | none => false
    | some (i, f, k) => decide (10448351135499549 * 10 ^ k < (i * 10 ^ k + f) * 2 ^ 52)

/-- Exact rational value of a parsed version string (used to state the
2.32-threshold claim against the spec's numeric wording). -/
def versionValue (v : String) : Option ℚ :=
  (parseVersion v).map (fun p => (p.1 : ℚ) + (p.2.1 : ℚ) / (10 : ℚ) ^ p.2.2)

/-- `detectLibcType` (install.js lines 58-73), Linux branch: returns
'musl' when the probe reports musl or an insufficient glibc, else 'gnu'.
(On non-Linux platforms the function is never consulted.) -/
def detectLibcType (p : ProbeResult) : LibcTy :=
  let info := getGlibcVersion p
  if info.type = .musl ∨ (info.type = .gnu ∧ isGlibcVersionSufficient info.version = false) then
    .musl
  else
    .gnu

/-- Supported Linux CPU architectures (`process.arch` values appearing in
the PLATFORMS table). -/
inductive Arch
  | x64
  | arm64
deriving DecidableEq

/-- The Linux slice of the PLATFORMS table (install.js lines 107-116):
`PLATFORMS['linux'][arch][libcType]`, with an absent key (the 'unknown'
libc type) modelled as `none`. -/
def linuxCatalog (a : Arch) (t : LibcTy) : Option String :=
  match a, t with
  | .x64, .gnu => some "forge-x86_64-unknown-linux-gnu"
  | .x64, .musl => some "forge-x86_64-unknown-linux-musl"
  | .arm64, .gnu => some "forge-aarch64-unknown-linux-gnu"
  | .arm64, .musl => some "forge-aarch64-unknown-linux-musl"
  | _, .unknown => none

/-- The musl catalog entry for an architecture (always present). -/
def muslNameOf (a : Arch) : String := (linuxCatalog a .musl).getD ""

/-- The ternary `(libcType === 'gnu') ? 'musl' : 'gnu'` used at
install.js lines 193 and 203. -/
def flipLibc : LibcTy → LibcTy
  | .gnu => .musl
  | _ => .gnu

/-- Linux candidate-binary selection (install.js lines 175-212), as a
function of the detected libc type and of which packaged artifacts exist
on disk (`fe` is `existsSync` restricted to the catalog file names):
always prefer the musl artifact when present; otherwise use the detected
type's entry (flipping if the type has no catalog entry), and if that
file is missing fall back to the alternative type's file when it exists. -/
def selectLinuxBinary (a : Arch) (detected : LibcTy) (fe : String → Bool) : String :=
  if fe (muslNameOf a) then muslNameOf a
  else
    let t := if (linuxCatalog a detected).isNone then flipLibc detected else detected
    let name := (linuxCatalog a t).getD ""
    if fe name then name
    else
      let altName := (linuxCatalog a (flipLibc t)).getD ""
      if fe altName then altName else name

/-- Result of `spawnSync(binaryPath, ['--version'])`: the numeric exit
status (or `null` on timeout / signal / spawn error) and the captured
stderr text. -/
structure ExecResult where
  status : Option Int
  stderr : String
deriving DecidableEq

/-- `testBinary` (install.js lines 76-99): success exactly on status 0;
the GLIBC_ marker in stderr only selects a warning message, never the
return value. -/
def testBinary (r : ExecResult) : Bool :=
  if r.status = some 0 then true
  else if jsIncludes r.stderr "GLIBC_" then false
  else false

/-- Terminal outcome of the Linux install flow: the distinct
`process.exit(1)` sites and the success path, recording which binary was
finally installed and whether the musl retry copy was performed. -/
inductive InstallOutcome
  | exitNotFound
  | installed (name : String) (retried : Bool)
  | exitBothFailed
  | exitMuslMissing
  | exitIncompat
deriving DecidableEq

/-- Whether the musl-retry copy+validate step was attempted. -/
def retryAttempted : InstallOutcome → Bool
  | .installed _ r => r
  | .exitBothFailed => true
  | _ => false

/-- Whether the install flow reached the success message (exit 0). -/
def installSucceeded : InstallOutcome → Bool
  | .installed _ _ => true
  | _ => false

/-- Post-copy Linux validation (install.js lines 234-263).  `name` is the
binary that was just copied to the target; `fe` is artifact existence;
`run` gives the `--version` execution result of each packaged binary.
If the test fails and the binary name contains '-gnu', the '-musl'
sibling is copied and tested when it exists; otherwise the install aborts. -/
def validateLinux (name : String) (fe : String → Bool) (run : String → ExecResult) : InstallOutcome :=
  if testBinary (run name) then .installed name false
  else if jsIncludes name "-gnu" then
    if fe (jsReplace name "-gnu" "-musl") then
      if testBinary (run (jsReplace name "-gnu" "-musl")) then
        .installed (jsReplace name "-gnu" "-musl") true
      else .exitBothFailed
    else .exitMuslMissing
  else .exitIncompat

/-- Ambient state of one installer run on Linux: the FORCE_MUSL
environment flag, the libc probe outcome, artifact existence on disk and
the behaviour of each packaged binary under `--version`. -/
structure InstallEnv where
  forceMusl : Bool
  probe : ProbeResult
  fileExists : String → Bool
  run : String → ExecResult

/-- The binary name selected (and, when it exists, first copied to the
target path) by the installer on Linux. -/
def selectedBinary (a : Arch) (e : InstallEnv) : String :=
  selectLinuxBinary a (detectLibcType e.probe) e.fileExists

/-- Whole Linux install flow (install.js lines 283-286 then `install()`):
the FORCE_MUSL check only sets `process.env.FORCE_LIBC`, which nothing
below ever reads, so selection depends only on detection and the
filesystem; then selection, the existence check, and copy + validation. -/
def runInstallerLinux (a : Arch) (e : InstallEnv) : InstallOutcome :=
  let _forceLibc : Option String := if e.forceMusl then some "musl" else none
  if e.fileExists (selectedBinary a e) then
    validateLinux (selectedBinary a e) e.fileExists e.run
  else .exitNotFound

/-- Events observed by the launcher (forge.js) after spawning the child:
the wrapper receives SIGINT, or the child's 'exit' event fires with a
numeric code (`some n`) or `null` (`none`, abnormal termination). -/
inductive LEvent
  | sigint
  | childExit (code : Option Nat)
deriving DecidableEq

/-- Launcher state: how many SIGINTs have been forwarded to the child via
`forgeProcess.kill('SIGINT')`, and the wrapper's exit status once
`process.exit` has run. -/
structure LState where
  forwarded : Nat
  exitStatus : Option Nat
deriving DecidableEq

/-- The expression `code || 0` of forge.js line 39: a `null` (or zero)
code yields 0, any other numeric code is passed through. -/
def launcherExitCode (code : Option Nat) : Nat :=
  match code with
  | none => 0
  | some n => if n = 0 then 0 else n

/-- One event-handler step of forge.js: the SIGINT handler (lines 30-34)
forwards the signal and does not exit; the child-exit handler (lines
37-40) exits with `code || 0`.  After `process.exit` the process is gone,
so further events have no effect. -/
def handleLEvent (s : LState) (e : LEvent) : LState :=
  if s.exitStatus.isSome then s
  else
    match e with
    | .sigint => { s with forwarded := s.forwarded + 1 }
    | .childExit c => { s with exitStatus := some (launcherExitCode c) }

/-- Run the launcher's event loop from the freshly-spawned state. -/
def runLauncher (evs : List LEvent) : LState :=
  evs.foldl handleLEvent ⟨0, none⟩

/-- Number of SIGINT events in a list. -/
def countSigint (evs : List LEvent) : Nat :=
  evs.countP (fun e => match e with | .sigint => true | _ => false)

theorem foldl_launcher_sigints (evs : List LEvent) :
    ∀ fwd : Nat, (∀ e ∈ evs, e = LEvent.sigint) →
      evs.foldl handleLEvent ⟨fwd, none⟩ = ⟨fwd + countSigint evs, none⟩ := by
  induction evs with
  | nil => intro fwd _; simp [countSigint]
  | cons e evs ih =>
    intro fwd hall
    have he : e = LEvent.sigint := hall e (by simp)
    subst he
    have hstep : handleLEvent ⟨fwd, none⟩ LEvent.sigint = ⟨fwd + 1, none⟩ := rfl
    rw [List.foldl_cons, hstep, ih (fwd + 1) (fun e he => hall e (List.mem_cons_of_mem _ he))]
    simp [countSigint, List.countP_cons]
    omega

theorem launcherExitCode_some (n : Nat) : launcherExitCode (some n) = n := by
  simp only [launcherExitCode]
  split <;> omega

/-- C10: while the child has not terminated, every SIGINT the wrapper
receives is forwarded to the child, and the wrapper has not exited: the
wrapper never terminates independently of the child's outcome. -/
theorem c10_sigint_forwarded_no_independent_exit (evs : List LEvent)
    (h : ∀ e ∈ evs, e = LEvent.sigint) :
    (runLauncher evs).forwarded = countSigint evs ∧ (runLauncher evs).exitStatus = none := by
  unfold runLauncher
  rw [foldl_launcher_sigints evs 0 h]
  simp

theorem c10_witness :
    (∀ e ∈ [LEvent.sigint], e = LEvent.sigint) ∧
    ((runLauncher [LEvent.sigint]).forwarded = countSigint [LEvent.sigint] ∧
      (runLauncher [LEvent.sigint]).exitStatus = none) :=
  ⟨by decide, c10_sigint_forwarded_no_independent_exit [LEvent.sigint] (by decide)⟩

/-- C5: when the child terminates with a numeric exit code, the wrapper
exits with exactly that code (`code || 0` is the identity on numeric
codes, including 0). -/
theorem c5_exit_code_propagated (evs : List LEvent) (n : Nat)
    (h : ∀ e ∈ evs, e = LEvent.sigint) :
    (runLauncher (evs ++ [LEvent.childExit (some n)])).exitStatus = some n := by
  unfold runLauncher
  rw [List.foldl_append, foldl_launcher_sigints evs 0 h]
  simp [handleLEvent, launcherExitCode_some]

theorem c5_witness :
    (∀ e ∈ [LEvent.sigint], e = LEvent.sigint) ∧
    (runLauncher ([LEvent.sigint] ++ [LEvent.childExit (some 42)])).exitStatus = some 42 :=
  ⟨by decide, c5_exit_code_propagated [LEvent.sigint] 42 (by decide)⟩

/-- C1 counterexample: when the child terminates abnormally (`exit` fires
with a `null` code), the wrapper exits with code 0 — not with a non-zero
code as claimed, because `code || 0` defaults a `null` code to 0. -/
theorem c1_counterexample :
    (runLauncher [LEvent.childExit none]).exitStatus = some 0 := by decide

/-- C1 (amended): when the child terminates abnormally (no numeric exit
code), the wrapper exits with code 0 (the `code || 0` default). -/
theorem c1_abnormal_exit_is_zero (evs : List LEvent)
    (h : ∀ e ∈ evs, e = LEvent.sigint) :
    (runLauncher (evs ++ [LEvent.childExit none])).exitStatus = some 0 := by
  unfold runLauncher
  rw [List.foldl_append, foldl_launcher_sigints evs 0 h]
  simp [handleLEvent, launcherExitCode]

theorem c1_witness :
    (∀ e ∈ [LEvent.sigint], e = LEvent.sigint) ∧
    (runLauncher ([LEvent.sigint] ++ [LEvent.childExit none])).exitStatus = some 0 :=
  ⟨by decide, c1_abnormal_exit_is_zero [LEvent.sigint] (by decide)⟩

theorem select_musl_of_exists (a : Arch) (det : LibcTy) (fe : String → Bool)
    (h : fe (muslNameOf a) = true) : selectLinuxBinary a det fe = muslNameOf a := by
  unfold selectLinuxBinary
  simp [h]

/-- C3: whenever the musl artifact exists among the packaged binaries,
the installer selects it as the copy candidate, whatever libc type was
detected (in particular when the detected type is gnu). -/
theorem c3_musl_artifact_preferred (a : Arch) (det : LibcTy) (fe : String → Bool)
    (h : fe (muslNameOf a) = true) :
    selectLinuxBinary a det fe = muslNameOf a :=
  select_musl_of_exists a det fe h

theorem c3_witness :
    (fun n => n == "forge-x86_64-unknown-linux-musl") (muslNameOf Arch.x64) = true ∧
    selectLinuxBinary Arch.x64 LibcTy.gnu (fun n => n == "forge-x86_64-unknown-linux-musl")
      = muslNameOf Arch.x64 :=
  ⟨by decide, c3_musl_artifact_preferred Arch.x64 LibcTy.gnu _ (by decide)⟩

/-- Environment for the C2 counterexample: FORCE_MUSL=1, a glibc-2.35
host, only the gnu artifact packaged, and a gnu binary that runs fine. -/
def c2CexEnv : InstallEnv :=
  { forceMusl := true
    probe := .ok "ldd (Ubuntu GLIBC 2.35-0ubuntu3.1) 2.35" none
    fileExists := fun n => n == "forge-x86_64-unknown-linux-gnu"
    run := fun _ => ⟨some 0, ""⟩ }

/-- C2 counterexample: with FORCE_MUSL=1 set but the musl artifact absent,
the installer selects, copies and installs the gnu binary — FORCE_MUSL
does not make it prefer the musl variant (the flag only sets FORCE_LIBC,
which the install flow never reads). -/
theorem c2_counterexample :
    c2CexEnv.forceMusl = true ∧
    runInstallerLinux Arch.x64 c2CexEnv
      = .installed "forge-x86_64-unknown-linux-gnu" false ∧
    "forge-x86_64-unknown-linux-gnu" ≠ muslNameOf Arch.x64 := by decide

/-- C2 (amended): on a Linux install with FORCE_MUSL=1 where the musl
artifact exists among the packaged binaries, the installer selects the
musl binary regardless of the detected libc type and version, and the
install proceeds to copy and validate exactly that binary. -/
theorem c2_force_musl_selects_musl (a : Arch) (e : InstallEnv)
    (_hforce : e.forceMusl = true)
    (h : e.fileExists (muslNameOf a) = true) :
    selectedBinary a e = muslNameOf a ∧
    runInstallerLinux a e = validateLinux (muslNameOf a) e.fileExists e.run := by
  have hs : selectedBinary a e = muslNameOf a :=
    select_musl_of_exists a (detectLibcType e.probe) e.fileExists h
  refine ⟨hs, ?_⟩
  unfold runInstallerLinux
  rw [hs, h]
  simp

/-- Environment for the C2 witness: FORCE_MUSL=1 with both artifacts
present on a glibc-2.35 host. -/
def c2WitEnv : InstallEnv :=
  { forceMusl := true
    probe := .ok "ldd (GNU libc) 2.35" none
    fileExists := fun _ => true
    run := fun _ => ⟨some 0, ""⟩ }

theorem c2_witness :
    c2WitEnv.forceMusl = true ∧ c2WitEnv.fileExists (muslNameOf Arch.x64) = true ∧
    (selectedBinary Arch.x64 c2WitEnv = muslNameOf Arch.x64 ∧
      runInstallerLinux Arch.x64 c2WitEnv
        = validateLinux (muslNameOf Arch.x64) c2WitEnv.fileExists c2WitEnv.run) :=
  ⟨rfl, rfl, c2_force_musl_selects_musl Arch.x64 c2WitEnv rfl rfl⟩

/-- C4 (amended): the musl retry is attempted exactly when the post-copy
execution check fails, the copied binary's name contains '-gnu', and the
'-musl' sibling artifact exists — independently of whether the failure's
stderr contains the GLIBC_ marker (which only selects a warning message);
and the install succeeds exactly when either the first check passes or
that retry's execution check passes. -/
theorem c4_retry_condition_and_result (name : String) (fe : String → Bool)
    (run : String → ExecResult) :
    retryAttempted (validateLinux name fe run)
      = (!testBinary (run name) && (jsIncludes name "-gnu"
          && fe (jsReplace name "-gnu" "-musl"))) ∧
    installSucceeded (validateLinux name fe run)
      = (testBinary (run name) || (jsIncludes name "-gnu"
          && (fe (jsReplace name "-gnu" "-musl")
              && testBinary (run (jsReplace name "-gnu" "-musl"))))) := by
  unfold validateLinux
  cases h1 : testBinary (run name) <;> cases h2 : jsIncludes name "-gnu" <;>
    cases h3 : fe (jsReplace name "-gnu" "-musl") <;>
    cases h4 : testBinary (run (jsReplace name "-gnu" "-musl")) <;>
    simp [h1, h2, h3, h4, retryAttempted, installSucceeded]

/-- Execution behaviour for the C4 counterexample: the gnu binary fails
with a diagnostic that does not contain the GLIBC_ marker; every other
binary runs fine. -/
def c4CexRun : String → ExecResult := fun n =>
  if n == "forge-x86_64-unknown-linux-gnu" then
    ⟨some 1, "error while loading shared libraries"⟩
  else ⟨some 0, ""⟩

/-- C4 counterexample: the installer attempts the musl retry although the
failure's diagnostic output contains no dynamic-library version-mismatch
marker, refuting the claimed "exactly when the diagnostic contains the
marker" condition. -/
theorem c4_counterexample :
    retryAttempted
      (validateLinux "forge-x86_64-unknown-linux-gnu" (fun _ => true) c4CexRun) = true ∧
    jsIncludes (c4CexRun "forge-x86_64-unknown-linux-gnu").stderr "GLIBC_" = false := by
  decide

/-- C9: the compatibility retry is asymmetric — when the selected binary
is the musl variant and its execution check fails, the installer aborts
(exit 1) without attempting the gnu variant: no retry is performed. -/
theorem c9_musl_failure_aborts (a : Arch) (fe : String → Bool)
    (run : String → ExecResult)
    (h : testBinary (run (muslNameOf a)) = false) :
    validateLinux (muslNameOf a) fe run = .exitIncompat ∧
    retryAttempted (validateLinux (muslNameOf a) fe run) = false := by
  have hg : jsIncludes (muslNameOf a) "-gnu" = false := by cases a <;> decide
  have hv : validateLinux (muslNameOf a) fe run = .exitIncompat := by
    unfold validateLinux
    simp [h, hg]
  exact ⟨hv, by rw [hv]; rfl⟩

theorem c9_witness :
    testBinary ((fun _ => (⟨some 1, "crash"⟩ : ExecResult)) (muslNameOf Arch.x64)) = false ∧
    (validateLinux (muslNameOf Arch.x64) (fun _ => true) (fun _ => ⟨some 1, "crash"⟩)
        = .exitIncompat ∧
      retryAttempted (validateLinux (muslNameOf Arch.x64) (fun _ => true)
        (fun _ => ⟨some 1, "crash"⟩)) = false) :=
  ⟨by decide, c9_musl_failure_aborts Arch.x64 _ _ (by decide)⟩

theorem startsWithL_map (f : Char → Char) :
    ∀ (p l : List Char), startsWithL l p = true → startsWithL (l.map f) (p.map f) = true := by
  intro p
  induction p with
  | nil => intro l _; cases l <;> simp [startsWithL]
  | cons q qs ih =>
    intro l h
    cases l with
    | nil => simp [startsWithL] at h
    | cons c cs =>
      simp only [startsWithL, Bool.and_eq_true, beq_iff_eq] at h
      simp only [List.map_cons, startsWithL, Bool.and_eq_true, beq_iff_eq]
      exact ⟨by rw [h.1], ih cs h.2⟩

theorem hasSub_map (f : Char → Char) :
    ∀ (l p : List Char), hasSub l p = true → hasSub (l.map f) (p.map f) = true := by
  intro l
  induction l with
  | nil =>
    intro p h
    simp only [hasSub, List.isEmpty_iff] at h
    subst h
    simp [hasSub]
  | cons c cs ih =>
    intro p h
    simp only [hasSub, Bool.or_eq_true] at h
    simp only [List.map_cons, hasSub, Bool.or_eq_true]
    rcases h with h | h
    · exact Or.inl (by simpa using startsWithL_map f p (c :: cs) h)
    · exact Or.inr (ih p h)

/-- C7: a loader output containing the marker "musl" is detected as musl,
whatever version numbers the output also contains. -/
theorem c7_musl_marker_detected (lddOut : String) (g : Option String)
    (h : jsIncludes lddOut "musl" = true) :
    detectLibcType (.ok lddOut g) = .musl := by
  have hmusl : ("musl".data.map Char.toLower) = "musl".data := by decide
  have hl : jsIncludes (jsLower lddOut) "musl" = true := by
    unfold jsIncludes at h ⊢
    have := hasSub_map Char.toLower lddOut.data "musl".data h
    rw [hmusl] at this
    exact this
  unfold detectLibcType getGlibcVersion
  simp [hl]

theorem c7_witness :
    jsIncludes "musl libc (x86_64) Version 1.2.4" "musl" = true ∧
    detectLibcType (.ok "musl libc (x86_64) Version 1.2.4" none) = .musl :=
  ⟨by decide, c7_musl_marker_detected "musl libc (x86_64) Version 1.2.4" none (by decide)⟩

/-- C8 counterexample: when the libc probe itself errors (type 'unknown'),
detection yields gnu, not the claimed safe musl default. -/
theorem c8_counterexample : detectLibcType ProbeResult.err ≠ LibcTy.musl := by decide

/-- C8 (amended): when probing succeeds but yields no parsable version
string (glibc-like output, unknown version), detection falls back to
musl; but when the probe itself errors (library type 'unknown'),
detection yields gnu instead of the musl default. -/
theorem c8_unparsable_defaults_musl_probe_error_gnu (s : String) (g : Option String)
    (h1 : jsIncludes (jsLower s) "musl" = false)
    (h2 : versionRegex s = none)
    (h3 : g.bind versionRegex = none) :
    detectLibcType (.ok s g) = .musl ∧ detectLibcType .err = .gnu := by
  refine ⟨?_, rfl⟩
  unfold detectLibcType getGlibcVersion
  simp [h1, h2, h3, isGlibcVersionSufficient]

theorem c8_witness :
    jsIncludes (jsLower "ldd: not found") "musl" = false ∧
    versionRegex "ldd: not found" = none ∧
    (none : Option String).bind versionRegex = none ∧
    (detectLibcType (.ok "ldd: not found" none) = .musl ∧ detectLibcType .err = .gnu) :=
  ⟨by decide, by decide, rfl,
    c8_unparsable_defaults_musl_probe_error_gnu "ldd: not found" none
      (by decide) (by decide) rfl⟩

theorem version_sufficient_iff_rat (i f k : Nat) :
    10448351135499549 * 10 ^ k < (i * 10 ^ k + f) * 2 ^ 52 ↔
      (10448351135499549 : ℚ) / 2 ^ 52 < (i : ℚ) + (f : ℚ) / (10 : ℚ) ^ k := by
  have h10 : (0 : ℚ) < (10 : ℚ) ^ k := by positivity
  have hE : (i : ℚ) + (f : ℚ) / (10 : ℚ) ^ k
      = ((i * 10 ^ k + f : ℕ) : ℚ) / (10 : ℚ) ^ k := by
    field_simp
  rw [hE, div_lt_div_iff₀ (by norm_num) h10]
  push_cast
  exact_mod_cast Iff.rfl

/-- C6 counterexample: the version string "2.3199999999999999" has exact
numeric value strictly below 2.32, yet detection yields gnu: the source
compares `parseFloat(version) >= 2.32` between IEEE doubles, and this
value rounds to the very double the literal 2.32 denotes, so the claimed
"musl exactly when the version is below the 2.32 threshold" fails. -/
theorem c6_counterexample :
    versionRegex "2.3199999999999999" = some "2.3199999999999999" ∧
    versionValue "2.3199999999999999" = some (23199999999999999 / 10 ^ 16 : ℚ) ∧
    (23199999999999999 / 10 ^ 16 : ℚ) < 232 / 100 ∧
    detectLibcType (.ok "2.3199999999999999" none) = .gnu := by
  refine ⟨by decide, ?_, by norm_num, by decide⟩
  have hp : parseVersion "2.3199999999999999" = some (2, 3199999999999999, 16) := by decide
  unfold versionValue
  rw [hp]
  exact congrArg some (by norm_num)

/-- C6 (amended): for loader output identified as glibc with a parsable
numeric version of exact value q, detection yields musl exactly when q is
at most 10448351135499549 / 2^52 (about 2.3199999999999998), the rounding
boundary below which `parseFloat(version) >= 2.32` fails at IEEE double
precision; and the input "2.35" yields gnu. -/
theorem c6_glibc_threshold (s : String) (g : Option String) (v : String) (q : ℚ)
    (h1 : jsIncludes (jsLower s) "musl" = false)
    (h2 : versionRegex s = some v)
    (h3 : versionValue v = some q) :
    (detectLibcType (.ok s g) = .musl ↔ q ≤ (10448351135499549 : ℚ) / 2 ^ 52) ∧
    detectLibcType (.ok "2.35" none) = .gnu := by
  refine ⟨?_, by decide⟩
  obtain ⟨⟨i, f, k⟩, hp, hq⟩ :
      ∃ p : Nat × Nat × Nat, parseVersion v = some p ∧
        ((p.1 : ℚ) + (p.2.1 : ℚ) / (10 : ℚ) ^ p.2.2) = q := by
    unfold versionValue at h3
    cases hpp : parseVersion v with
    | none => rw [hpp] at h3; simp at h3
    | some p =>
      rw [hpp] at h3
      exact ⟨p, rfl, Option.some.inj h3⟩
  subst hq
  have hdet : detectLibcType (.ok s g)
      = (if isGlibcVersionSufficient (some v) = false then LibcTy.musl else LibcTy.gnu) := by
    unfold detectLibcType getGlibcVersion
    simp [h1, h2]
  have hsuff : isGlibcVersionSufficient (some v)
      = decide (10448351135499549 * 10 ^ k < (i * 10 ^ k + f) * 2 ^ 52) := by
    simp only [isGlibcVersionSufficient]
    rw [hp]
  rw [hdet, hsuff]
  by_cases hlt : 10448351135499549 * 10 ^ k < (i * 10 ^ k + f) * 2 ^ 52
  · have hnot : ¬ ((i : ℚ) + (f : ℚ) / (10 : ℚ) ^ k ≤ (10448351135499549 : ℚ) / 2 ^ 52) :=
      not_le.mpr ((version_sufficient_iff_rat i f k).mp hlt)
    rw [decide_eq_true hlt]
    exact iff_of_false (by simp) hnot
  · have hle : (i : ℚ) + (f : ℚ) / (10 : ℚ) ^ k ≤ (10448351135499549 : ℚ) / 2 ^ 52 :=
      le_of_not_lt (fun hc => hlt ((version_sufficient_iff_rat i f k).mpr hc))
    rw [decide_eq_false hlt]
    exact iff_of_true (by simp) hle

theorem c6_witness :
    jsIncludes (jsLower "ldd (GNU libc) 2.31") "musl" = false ∧
    versionRegex "ldd (GNU libc) 2.31" = some "2.31" ∧
    versionValue "2.31" = some (231 / 100 : ℚ) ∧
    detectLibcType (.ok "ldd (GNU libc) 2.31" none) = .musl := by
  have h3 : versionValue "2.31" = some (231 / 100 : ℚ) := by
    have hp : parseVersion "2.31" = some (2, 31, 2) := by decide
    unfold versionValue
    rw [hp]
    exact congrArg some (by norm_num)
  exact ⟨by decide, by decide, h3,
    ((c6_glibc_threshold "ldd (GNU libc) 2.31" none "2.31" (231 / 100)
        (by decide) (by decide) h3).1).mpr
      (by norm_num)⟩
